import Mathlib

/-!
Shallow embedding of `Mixtape/mslds.py` (class `MetastableSwitchingLDS`):
the hot-start initializer `_init`, the EM orchestration in `fit`, `score`,
`sample` and `compute_metastable_wells`, together with theorems checking the
specification's claims about them.

Numeric arrays are embedded over `ℚ` (exact arithmetic standing for the
floating-point reals); a `K × D` parameter set mirrors the seven parameter
attributes of the Python object.  External collaborators that the class calls
(`sklearn` K-means, the C inference engine `_mslds.do_estep`, the random
draws) enter as explicit function arguments (oracles), so every theorem
quantifies over their behaviour.
-/

namespace Mslds

/-- The damping constant `self.eps = .2` set in `__init__`. -/
def eps : ℚ := 1/5

/-- The seven parameter attributes of a `MetastableSwitchingLDS` object with
`n_states = K` and `n_features = D` (lines 64-70 of `mslds.py`):
`means_`, `covars_`, `As_`, `bs_`, `Qs_`, `transmat_`, `populations_`. -/
structure Params (K D : Nat) where
  means : Fin K → Fin D → ℚ
  covars : Fin K → Matrix (Fin D) (Fin D) ℚ
  As : Fin K → Matrix (Fin D) (Fin D) ℚ
  bs : Fin K → Fin D → ℚ
  Qs : Fin K → Matrix (Fin D) (Fin D) ℚ
  transmat : Fin K → Fin K → ℚ
  populations : Fin K → ℚ
deriving DecidableEq

/-- Covariance initialization in `_init` (lines 92-97):
`distribute_covar_matrix_to_match_covariance_type(cv, 'full', n_states)`
tiles the pooled covariance `cv` into one full matrix per state, and then
`covars_[covars_ == 0] = 1e-5` replaces every exactly-zero entry by `1e-5`. -/
def initCovars (K D : Nat) (cv : Matrix (Fin D) (Fin D) ℚ) :
    Fin K → Matrix (Fin D) (Fin D) ℚ :=
  fun _ => Matrix.of fun i j => if cv i j = 0 then 1/100000 else cv i j

/-- Dynamics-matrix initialization in `_init` (lines 105-109): the source
computes `np.eye(n_features) - self.eps`, which by numpy broadcasting
subtracts `eps` from EVERY entry of the identity (diagonal `1 - eps`,
off-diagonal `-eps`).  Note this is not `(1 - eps) * I`. -/
def initAs (K D : Nat) : Fin K → Matrix (Fin D) (Fin D) ℚ :=
  fun _ => Matrix.of fun i j => (if i = j then (1 : ℚ) else 0) - eps

/-- The parameter set produced by `_init` (lines 76-122).  The K-means
cluster centers `km` (external `sklearn` call) and the pooled sample
covariance `cv` (`np.cov`) are inputs.  `transmat_` is filled with
`1/n_states`, `populations_` is `ones(n_states)/n_states`,
`bs_[i] = (eye(D) - As_[i]) @ means_[i]` and `Qs_[i] = eps * covars_[i]`. -/
def initParams (K D : Nat) (km : Fin K → Fin D → ℚ)
    (cv : Matrix (Fin D) (Fin D) ℚ) : Params K D where
  means := km
  covars := initCovars K D cv
  As := initAs K D
  bs := fun k => ((1 : Matrix (Fin D) (Fin D) ℚ) - initAs K D k).mulVec (km k)
  Qs := fun k => eps • initCovars K D cv k
  transmat := fun _ _ => 1 / (K : ℚ)
  populations := fun _ => 1 / (K : ℚ)

/-- The matrix inverse as computed by `np.linalg.inv`, embedded as the exact
inverse `det⁻¹ • adjugate` (the cofactor formula; `np.linalg.inv` computes
the true inverse of an invertible matrix). -/
def npInv {D : Nat} (M : Matrix (Fin D) (Fin D) ℚ) : Matrix (Fin D) (Fin D) ℚ :=
  (M.det)⁻¹ • M.adjugate

/-- Method `compute_metastable_wells` (lines 201-210):
`wells[i] = np.dot(np.linalg.inv(np.eye(n_features) - As_[i]), bs_[i])`. -/
def compute_metastable_wells {K D : Nat} (p : Params K D) : Fin K → Fin D → ℚ :=
  fun k => (npInv ((1 : Matrix (Fin D) (Fin D) ℚ) - p.As k)).mulVec (p.bs k)

/-- Over the field ℚ, the cofactor-formula inverse agrees with Mathlib's
`Matrix.inv` on every matrix. -/
theorem npInv_eq_inv {D : Nat} (M : Matrix (Fin D) (Fin D) ℚ) : npInv M = M⁻¹ := by
  rw [Matrix.inv_def, npInv, Ring.inverse_eq_inv]

/-- Python exception outcomes that the embedded methods can produce.
`initializationError` stands for the exception class named by the
specification's error taxonomy; no such class is defined anywhere in the
source. -/
inductive PyErr where
  | attributeError
  | indexError
  | valueError
  | keyError
  | nameError
  | initializationError
deriving DecidableEq

/-- Every attribute name defined on a `MetastableSwitchingLDS` instance:
the methods and properties of the class body plus the instance attributes
assigned in `__init__` (lines 50-74, 76-305 of `mslds.py`). -/
def msldsAttrNames : List String :=
  ["__init__", "_init", "sample", "score", "fit",
   "compute_metastable_wells", "compute_process_covariances",
   "compute_eigenspectra",
   "As_", "Qs_", "bs_", "means_", "covars_", "transmat_", "populations_",
   "n_states", "n_init", "n_features", "n_hotstart",
   "n_hotstart_sequences", "n_em_iter", "params", "eps", "_impl",
   "_As_", "_bs_", "_Qs_", "_covars_", "_means_", "_transmat_",
   "_populations_"]

/-- Python attribute lookup for the name `_do_mstep` on a
`MetastableSwitchingLDS` instance: were such a method defined, the lookup
performed by `self._do_mstep` would yield its bound method `f`; the lookup
succeeds exactly when the name occurs in `msldsAttrNames`. -/
def msldsMStepLookup {K D : Nat} {S : Type}
    (f : S → Nat → Params K D → Params K D) :
    Option (S → Nat → Params K D → Params K D) :=
  if "_do_mstep" ∈ msldsAttrNames then some f else none

/-- The inner EM loop of `fit` for one restart (lines 173-178): for
`i in range(n_em_iter)` run the E-step, append `curr_logprob` to
`fit_logprob` when `i >= n_hotstart`, then call `self._do_mstep` (whose
attribute lookup is given by `mstepOpt`; a failed lookup raises
`AttributeError`).  Returns the final parameters, the `fit_logprob` list and
the last `curr_logprob` (`none` when the loop body never ran, leaving
`curr_logprob` unbound). -/
def emRunE {K D : Nat} {S : Type} (estep : Params K D → Nat → ℚ × S)
    (mstepOpt : Option (S → Nat → Params K D → Params K D)) (nHot : Nat)
    (p0 : Params K D) : Nat → Except PyErr (Params K D × List ℚ × Option ℚ)
  | 0 => .ok (p0, [], none)
  | n + 1 => do
    let (p, acc, _) ← emRunE estep mstepOpt nHot p0 n
    let res := estep p n
    let acc2 := if nHot ≤ n then acc ++ [res.1] else acc
    match mstepOpt with
    | none => .error PyErr.attributeError
    | some m => .ok (m res.2 n p, acc2, some res.1)

/-- The best-fit comparison at the end of one restart (lines 179-188): the
running best `(loglikelihood, params, fit_logprob)` is replaced exactly when
`curr_logprob > best_fit['loglikelihood']` (always, on the first restart,
since the initial best is `-inf`); the live parameters become this restart's
final parameters either way. -/
def bestUpdate {K D : Nat} (st : Option ((ℚ × Params K D × List ℚ) × Params K D))
    (last : ℚ) (pEnd : Params K D) (trace : List ℚ) :
    Option ((ℚ × Params K D × List ℚ) × Params K D) :=
  match st with
  | none => some ((last, pEnd, trace), pEnd)
  | some ((b, bp, bt), _) =>
    if b < last then some ((last, pEnd, trace), pEnd)
    else some ((b, bp, bt), pEnd)

/-- The restart loop of `fit` (lines 168-188): `r` restarts, each hot-started
by `initOf r` (the `self._init(sequences)` call, whose K-means clustering may
fail), followed by the inner EM loop.  The running state is `none` before the
first restart (`best_fit` holds no params, the model attributes are `None`)
and otherwise holds the best triple together with the live parameters left on
the object by the latest restart. -/
def fitLoop {K D : Nat} {S : Type} (initOf : Nat → Except PyErr (Params K D))
    (estep : Params K D → Nat → ℚ × S)
    (mstepOpt : Option (S → Nat → Params K D → Params K D))
    (nIter nHot : Nat) :
    Nat → Except PyErr (Option ((ℚ × Params K D × List ℚ) × Params K D))
  | 0 => .ok none
  | r + 1 => do
    let st ← fitLoop initOf estep mstepOpt nIter nHot r
    let p0 ← initOf r
    let (pEnd, trace, lastOpt) ← emRunE estep mstepOpt nHot p0 nIter
    match lastOpt with
    | none => .error PyErr.nameError
    | some last => .ok (bestUpdate st last pEnd trace)

/-- The attributes of the model after `fit` returns (lines 189-197).  The
final-assignment block writes the best snapshot into `means_`, `vars_`,
`As_`, `bs_`, `Qs_`, `transmat_`, `populations_` and `fit_logprob_`; note
`vars` receives the best snapshot's covariances (line 191 assigns to
`self.vars_`) while `covars` is the `covars_` attribute, which that block
never writes. -/
structure FitDone (K D : Nat) where
  means : Fin K → Fin D → ℚ
  covars : Fin K → Matrix (Fin D) (Fin D) ℚ
  vars : Fin K → Matrix (Fin D) (Fin D) ℚ
  As : Fin K → Matrix (Fin D) (Fin D) ℚ
  bs : Fin K → Fin D → ℚ
  Qs : Fin K → Matrix (Fin D) (Fin D) ℚ
  transmat : Fin K → Fin K → ℚ
  populations : Fin K → ℚ
  fitLogprob : List ℚ
deriving DecidableEq

/-- Method `fit` (lines 164-199): run the restart loop, then set the final
values from `best_fit['params']` (an empty `best_fit` raises `KeyError`).
`covars_` is left at the live value from the last restart because line 191
writes the best covariances to `self.vars_` instead. -/
def fitPy {K D : Nat} {S : Type} (initOf : Nat → Except PyErr (Params K D))
    (estep : Params K D → Nat → ℚ × S)
    (mstepOpt : Option (S → Nat → Params K D → Params K D))
    (nInit nIter nHot : Nat) : Except PyErr (FitDone K D) :=
  match fitLoop initOf estep mstepOpt nIter nHot nInit with
  | .error e => .error e
  | .ok none => .error PyErr.keyError
  | .ok (some ((_, bp, bt), live)) =>
    .ok { means := bp.means, covars := live.covars, vars := bp.covars,
          As := bp.As, bs := bp.bs, Qs := bp.Qs, transmat := bp.transmat,
          populations := bp.populations, fitLogprob := bt }

/-- The parameters reached after `i` EM iterations of one restart, when the
M-step `m` is available: closed form of the inner loop state. -/
def emState {K D : Nat} {S : Type} (estep : Params K D → Nat → ℚ × S)
    (m : S → Nat → Params K D → Params K D) (p0 : Params K D) :
    Nat → Params K D
  | 0 => p0
  | n + 1 => m (estep (emState estep m p0 n) n).2 n (emState estep m p0 n)

/-- The E-step log-likelihood computed at iteration `i` of one restart. -/
def emLL {K D : Nat} {S : Type} (estep : Params K D → Nat → ℚ × S)
    (m : S → Nat → Params K D → Params K D) (p0 : Params K D) (i : Nat) : ℚ :=
  (estep (emState estep m p0 i) i).1

/-- Computation rule: binding a successful `Except` applies the
continuation. -/
theorem exceptBind_ok {ε α β : Type} (a : α) (f : α → Except ε β) :
    (Except.ok a >>= f) = f a := rfl

/-- Computation rule: binding a failed `Except` propagates the error. -/
theorem exceptBind_err {ε α β : Type} (e : ε) (f : α → Except ε β) :
    ((Except.error e : Except ε α) >>= f) = Except.error e := rfl

/-- Closed form of the inner EM loop when the M-step is available: the final
parameters are `emState`, the `fit_logprob` list holds exactly the E-step
log-likelihoods of iterations `i` with `nHot ≤ i < n` in order, and the last
recorded log-likelihood is that of iteration `n - 1`. -/
theorem emRunE_some_eq {K D : Nat} {S : Type} (estep : Params K D → Nat → ℚ × S)
    (m : S → Nat → Params K D → Params K D) (nHot : Nat) (p0 : Params K D)
    (n : Nat) :
    emRunE estep (some m) nHot p0 n =
      .ok (emState estep m p0 n,
        ((List.range n).filter (fun i => decide (nHot ≤ i))).map
          (emLL estep m p0),
        if n = 0 then none else some (emLL estep m p0 (n - 1))) := by
  induction n with
  | zero => rfl
  | succ k ih =>
    rw [emRunE, ih]
    by_cases hc : nHot ≤ k <;>
      simp [List.range_succ, List.filter_append, hc, emLL, emState] <;>
      rfl

/-- With the M-step attribute missing, the inner EM loop of any restart that
performs at least one iteration stops with `AttributeError`. -/
theorem emRunE_none_eq {K D : Nat} {S : Type} (estep : Params K D → Nat → ℚ × S)
    (nHot : Nat) (p0 : Params K D) (n : Nat) (hn : 1 ≤ n) :
    emRunE (S := S) estep none nHot p0 n = .error PyErr.attributeError := by
  induction n with
  | zero => omega
  | succ k ih =>
    cases Nat.eq_zero_or_pos k with
    | inl h0 => subst h0; rfl
    | inr hpos => rw [emRunE, ih hpos]; rfl

/-- With the M-step attribute missing, the whole restart loop of `fit` stops
with `AttributeError` as soon as one restart with one EM iteration runs. -/
theorem fitLoop_none_eq {K D : Nat} {S : Type} (pInit : Nat → Params K D)
    (estep : Params K D → Nat → ℚ × S) (nIter nHot : Nat) (hIter : 1 ≤ nIter)
    (r : Nat) (hr : 1 ≤ r) :
    fitLoop (fun i => .ok (pInit i)) estep none nIter nHot r
      = .error PyErr.attributeError := by
  induction r with
  | zero => omega
  | succ k ih =>
    cases Nat.eq_zero_or_pos k with
    | inl h0 =>
      subst h0
      have h := emRunE_none_eq (S := S) estep nHot (pInit 0) nIter hIter
      simp only [fitLoop, exceptBind_ok, exceptBind_err, h]
    | inr hpos => rw [fitLoop, ih hpos]; rfl

/-- C2: the class defines no method `_do_mstep`, so whenever a restart's
hot start and E-step succeed, `fit` raises `AttributeError` at the
`self._do_mstep` call of its first EM iteration and never returns normally
(for any configuration with at least one restart and one EM iteration, any
hot-start results `pInit`, any E-step behaviour and any burn-in count). -/
theorem fit_raises_attributeError {K D : Nat} {S : Type}
    (pInit : Nat → Params K D) (estep : Params K D → Nat → ℚ × S)
    (f : S → Nat → Params K D → Params K D) (nInit nIter nHot : Nat)
    (hInit : 1 ≤ nInit) (hIter : 1 ≤ nIter) :
    "_do_mstep" ∉ msldsAttrNames ∧
    fitPy (fun r => Except.ok (pInit r)) estep (msldsMStepLookup f)
      nInit nIter nHot = Except.error PyErr.attributeError := by
  have habs : "_do_mstep" ∉ msldsAttrNames := by decide
  refine ⟨habs, ?_⟩
  have hnone : msldsMStepLookup (K := K) (D := D) f = none := by
    rw [msldsMStepLookup, if_neg habs]
  rw [hnone, fitPy, fitLoop_none_eq pInit estep nIter nHot hIter nInit hInit]

/-- All-zero 1-state, 1-feature parameter set, used as a concrete input. -/
def zeroParams : Params 1 1 where
  means := fun _ _ => 0
  covars := fun _ => 0
  As := fun _ => 0
  bs := fun _ _ => 0
  Qs := fun _ => 0
  transmat := fun _ _ => 0
  populations := fun _ => 0

/-- Witness for C2 at a concrete configuration. -/
theorem fit_raises_attributeError_witness :
    1 ≤ 1 ∧
    ("_do_mstep" ∉ msldsAttrNames ∧
    fitPy (fun _ => Except.ok zeroParams) (fun _ _ => ((0 : ℚ), ()))
      (msldsMStepLookup fun _ _ p => p) 1 1 0
      = Except.error PyErr.attributeError) :=
  ⟨Nat.le_refl 1,
   fit_raises_attributeError (fun _ => zeroParams) (fun _ _ => ((0 : ℚ), ()))
     (fun _ _ p => p) 1 1 0 (Nat.le_refl 1) (Nat.le_refl 1)⟩

/-- C5: within each restart whose M-step is available, the tracked
`fit_logprob` list produced by the EM loop is exactly the list of E-step
log-likelihoods of the iterations `i` with `n_hotstart ≤ i < n_em_iter`, in
iteration order; the first `n_hotstart` burn-in iterations are excluded. -/
theorem fit_logprob_excludes_hotstart {K D : Nat} {S : Type}
    (estep : Params K D → Nat → ℚ × S)
    (m : S → Nat → Params K D → Params K D) (nHot : Nat) (p0 : Params K D)
    (nIter : Nat) :
    emRunE estep (some m) nHot p0 nIter =
      Except.ok (emState estep m p0 nIter,
        ((List.range nIter).filter (fun i => decide (nHot ≤ i))).map
          (emLL estep m p0),
        if nIter = 0 then none else some (emLL estep m p0 (nIter - 1))) :=
  emRunE_some_eq estep m nHot p0 nIter

/-- Hot start of restart `r` in a two-restart scenario: restart 0 starts
with covariance matrix 0, restart 1 with covariance matrix of all ones. -/
def twoRestartInit (r : Nat) : Params 1 1 :=
  if r = 0 then zeroParams
  else { zeroParams with covars := fun _ => Matrix.of (fun _ _ => 1) }

/-- E-step oracle whose log-likelihood is minus the `(0,0)` entry of the
current covariance: restart 0 scores `0`, restart 1 scores `-1`. -/
def twoRestartEStep (p : Params 1 1) : Nat → ℚ × Unit :=
  fun _ => (-(p.covars 0 0 0), ())

/-- C1: evaluation of `fit` (with an identity M-step substituted for the
missing `_do_mstep`) on two restarts where restart 0 scores strictly higher.
The best snapshot's covariances land in the `vars_` attribute (line 191
writes `self.vars_`), while the model's `covars_` attribute keeps the LAST
restart's covariances (all ones) — a parameter from the worse-scoring
restart is retained, contradicting the claim that `covars_` equals the
best restart's snapshot. -/
theorem fit_keeps_last_restart_covars :
    fitPy (fun r => Except.ok (twoRestartInit r))
        (fun p => twoRestartEStep p) (some (fun _ _ p => p)) 2 1 0 =
      Except.ok (FitDone.mk (fun _ _ => 0)
        (fun _ => Matrix.of (fun _ _ => 1))
        (fun _ => 0) (fun _ => 0) (fun _ _ => 0)
        (fun _ => 0) (fun _ _ => 0)
        (fun _ => 0) [0]) ∧
    ((fun _ => Matrix.of fun _ _ => 1 : Fin 1 → Matrix (Fin 1) (Fin 1) ℚ)
      ≠ fun _ => 0) := by
  constructor
  · norm_num [fitPy, fitLoop, bestUpdate, emRunE, exceptBind_ok,
      exceptBind_err, twoRestartInit, twoRestartEStep, zeroParams]
  · intro h
    have h2 : (Matrix.of fun _ _ => (1 : ℚ) : Matrix (Fin 1) (Fin 1) ℚ) 0 0
        = (0 : Matrix (Fin 1) (Fin 1) ℚ) 0 0 := by rw [congrFun h 0]
    norm_num [Matrix.zero_apply] at h2

/-- The K-means clustering call of `_init` (line 89, external
`sklearn.cluster.KMeans.fit`, behaviour per its documented contract):
fitting `n_clusters = K` on a pooled dataset of `nPoints` points raises a
`ValueError` when there are fewer points than clusters, and otherwise
produces `K` cluster centers (the oracle `centers`). -/
def kmeansFit (nPoints K D : Nat) (centers : Fin K → Fin D → ℚ) :
    Except PyErr (Fin K → Fin D → ℚ) :=
  if nPoints < K then Except.error PyErr.valueError else Except.ok centers

/-- Method `_init` (lines 76-122) as a fallible computation: the clustering
runs first and its exception propagates unwrapped (`_init` contains no
handler, and the source defines no exception class of its own anywhere);
on success the parameter set is built from the centers and the pooled
covariance. -/
def initRun (nPoints K D : Nat) (centers : Fin K → Fin D → ℚ)
    (cv : Matrix (Fin D) (Fin D) ℚ) : Except PyErr (Params K D) := do
  let km ← kmeansFit nPoints K D centers
  Except.ok (initParams K D km cv)

/-- C4 counterexample: on a degenerate input (1 pooled point, 2 states) the
hot start fails with the clustering library's `ValueError`, which is not an
`InitializationError` — the source defines and raises no such exception. -/
theorem init_degenerate_error_is_not_initializationError :
    initRun 1 2 1 (fun _ _ => 0) 0 = Except.error PyErr.valueError ∧
    (Except.error PyErr.valueError : Except PyErr (Params 2 1)) ≠
      Except.error PyErr.initializationError := by
  constructor
  · rfl
  · intro h
    injection h with h2
    cases h2

/-- With every restart's hot start failing with error `e`, the restart loop
of `fit` fails with `e`. -/
theorem fitLoop_initErr {K D : Nat} {S : Type}
    (initOf : Nat → Except PyErr (Params K D)) (e : PyErr)
    (estep : Params K D → Nat → ℚ × S)
    (mstepOpt : Option (S → Nat → Params K D → Params K D))
    (nIter nHot : Nat) (hinit : ∀ i, initOf i = Except.error e)
    (r : Nat) (hr : 1 ≤ r) :
    fitLoop initOf estep mstepOpt nIter nHot r = Except.error e := by
  induction r with
  | zero => omega
  | succ k ih =>
    cases Nat.eq_zero_or_pos k with
    | inl h0 => subst h0; simp only [fitLoop, exceptBind_ok, hinit 0, exceptBind_err]
    | inr hpos => rw [fitLoop, ih hpos]; rfl

/-- C4 (amended): a pooled hot-start dataset with fewer points than
`n_states` makes `_init` — and hence `fit` — fail eagerly with the
clustering error (`ValueError`), before any EM work: the outcome of `fit`
is the same for every E-step behaviour. -/
theorem init_degenerate_fails_eagerly {K D : Nat} {S : Type}
    (nPoints : Nat) (centers : Fin K → Fin D → ℚ)
    (cv : Matrix (Fin D) (Fin D) ℚ)
    (estep estep2 : Params K D → Nat → ℚ × S)
    (mstepOpt : Option (S → Nat → Params K D → Params K D))
    (nInit nIter nHot : Nat) (hdeg : nPoints < K) (hInit : 1 ≤ nInit) :
    initRun nPoints K D centers cv = Except.error PyErr.valueError ∧
    fitPy (fun _ => initRun nPoints K D centers cv) estep mstepOpt
      nInit nIter nHot = Except.error PyErr.valueError ∧
    fitPy (fun _ => initRun nPoints K D centers cv) estep mstepOpt
        nInit nIter nHot =
      fitPy (fun _ => initRun nPoints K D centers cv) estep2 mstepOpt
        nInit nIter nHot := by
  have hi : initRun nPoints K D centers cv = Except.error PyErr.valueError := by
    rw [initRun, kmeansFit, if_pos hdeg]; rfl
  have h1 := fitLoop_initErr (fun _ => initRun nPoints K D centers cv)
    PyErr.valueError estep mstepOpt nIter nHot (fun _ => hi) nInit hInit
  have h2 := fitLoop_initErr (fun _ => initRun nPoints K D centers cv)
    PyErr.valueError estep2 mstepOpt nIter nHot (fun _ => hi) nInit hInit
  refine ⟨hi, ?_, ?_⟩
  · rw [fitPy, h1]
  · rw [fitPy, h1, fitPy, h2]

/-- Witness for C4 (amended) at a concrete degenerate configuration. -/
theorem init_degenerate_fails_eagerly_witness :
    1 < 2 ∧ 1 ≤ 1 ∧
    (initRun 1 2 1 (fun _ _ => 0) 0 = Except.error PyErr.valueError ∧
    fitPy (S := Unit) (fun _ => initRun 1 2 1 (fun _ _ => 0) 0)
      (fun _ _ => (0, ())) none 1 1 0 = Except.error PyErr.valueError ∧
    fitPy (fun _ => initRun 1 2 1 (fun _ _ => 0) 0)
        (fun _ _ => (0, ())) none 1 1 0 =
      fitPy (fun _ => initRun 1 2 1 (fun _ _ => 0) 0)
        (fun _ _ => (1, ())) none 1 1 0) :=
  ⟨Nat.one_lt_two, Nat.le_refl 1,
   init_degenerate_fails_eagerly 1 (fun _ _ => 0) 0
     (fun _ _ => (0, ())) (fun _ _ => (1, ())) none 1 1 0
     Nat.one_lt_two (Nat.le_refl 1)⟩

/-- The observable state of the Python object relevant to `score`: the
parameter set plus the sequence list stored on the inference engine
(`self._impl._sequences`). -/
structure ObjState (K D : Nat) (Seq : Type) where
  params : Params K D
  implSequences : List Seq

/-- Method `score` (lines 155-162): store the type-checked sequences on the
inference engine, run the single E-step `self._impl.do_estep(self.n_em_iter)`
under the current parameters — the engine reads the parameters and the
sequences and returns `(logprob, stats)` without writing any parameter
(spec §4.2; the C engine is not part of the sources) — and return the
log-likelihood.  No M-step runs anywhere in the method. -/
def scoreRun {K D : Nat} {S Seq : Type} (st : ObjState K D Seq)
    (seqs : List Seq) (estep : Params K D → List Seq → Nat → ℚ × S)
    (nEmIter : Nat) : ℚ × ObjState K D Seq :=
  ((estep st.params seqs nEmIter).1, { st with implSequences := seqs })

/-- C6: `score` returns exactly the one E-step's log-likelihood of the given
sequences under the current parameters, and leaves every model parameter
(`means_`, `covars_`, `As_`, `bs_`, `Qs_`, `transmat_`, `populations_`)
unchanged; the only state it writes is the engine's stored sequence list. -/
theorem score_is_one_estep_no_mstep {K D : Nat} {S Seq : Type}
    (st : ObjState K D Seq) (seqs : List Seq)
    (estep : Params K D → List Seq → Nat → ℚ × S) (nEmIter : Nat) :
    (scoreRun st seqs estep nEmIter).1 = (estep st.params seqs nEmIter).1 ∧
    (scoreRun st seqs estep nEmIter).2.params.means = st.params.means ∧
    (scoreRun st seqs estep nEmIter).2.params.covars = st.params.covars ∧
    (scoreRun st seqs estep nEmIter).2.params.As = st.params.As ∧
    (scoreRun st seqs estep nEmIter).2.params.bs = st.params.bs ∧
    (scoreRun st seqs estep nEmIter).2.params.Qs = st.params.Qs ∧
    (scoreRun st seqs estep nEmIter).2.params.transmat = st.params.transmat ∧
    (scoreRun st seqs estep nEmIter).2.params.populations
      = st.params.populations ∧
    (scoreRun st seqs estep nEmIter).2.implSequences = seqs :=
  ⟨rfl, rfl, rfl, rfl, rfl, rfl, rfl, rfl, rfl⟩

/-- Row-stochasticity: every row of a transition matrix sums to 1 with
non-negative entries. -/
def RowStochastic {K : Nat} (T : Fin K → Fin K → ℚ) : Prop :=
  (∀ i, ∑ j, T i j = 1) ∧ ∀ i j, 0 ≤ T i j

/-- A probability vector: entries are non-negative and sum to 1. -/
def ProbVec {K : Nat} (v : Fin K → ℚ) : Prop :=
  (∑ i, v i = 1) ∧ ∀ i, 0 ≤ v i

/-- Joint normalization of a parameter set: row-stochastic `transmat_` and
a probability vector `populations_`. -/
def StochasticParams {K D : Nat} (p : Params K D) : Prop :=
  RowStochastic p.transmat ∧ ProbVec p.populations

/-- After `_init`, `transmat_` and `populations_` are exactly the uniform
distributions over the `K` states, hence normalized. -/
theorem initParams_uniform_stochastic {K D : Nat} (km : Fin K → Fin D → ℚ)
    (cv : Matrix (Fin D) (Fin D) ℚ) (hK : 0 < K) :
    (initParams K D km cv).transmat = (fun _ _ => 1 / (K : ℚ)) ∧
    (initParams K D km cv).populations = (fun _ => 1 / (K : ℚ)) ∧
    StochasticParams (initParams K D km cv) := by
  have hKQ : ((K : ℚ)) ≠ 0 :=
    Nat.cast_ne_zero.mpr (Nat.pos_iff_ne_zero.mp hK)
  refine ⟨rfl, rfl, ⟨?_, ?_⟩, ?_, ?_⟩
  · intro i
    show (∑ _j : Fin K, 1 / (K : ℚ)) = 1
    rw [Finset.sum_const, Finset.card_univ, Fintype.card_fin, nsmul_eq_mul,
      mul_one_div, div_self hKQ]
  · intro i j
    show (0 : ℚ) ≤ 1 / (K : ℚ)
    positivity
  · show (∑ _i : Fin K, 1 / (K : ℚ)) = 1
    rw [Finset.sum_const, Finset.card_univ, Fintype.card_fin, nsmul_eq_mul,
      mul_one_div, div_self hKQ]
  · intro i
    show (0 : ℚ) ≤ 1 / (K : ℚ)
    positivity

/-- Normalization is preserved along the EM iterations of one restart when
every M-step update preserves it. -/
theorem emState_stochastic {K D : Nat} {S : Type}
    (estep : Params K D → Nat → ℚ × S)
    (m : S → Nat → Params K D → Params K D) (p0 : Params K D)
    (hm : ∀ s i p, StochasticParams p → StochasticParams (m s i p))
    (h0 : StochasticParams p0) :
    ∀ n, StochasticParams (emState estep m p0 n)
  | 0 => h0
  | n + 1 => hm _ _ _ (emState_stochastic estep m p0 hm h0 n)

/-- Normalization invariant of the restart loop: whenever it succeeds with a
best snapshot and live parameters, both are normalized, provided every hot
start and every M-step update is. -/
theorem fitLoop_stochastic {K D : Nat} {S : Type}
    (initOf : Nat → Except PyErr (Params K D))
    (estep : Params K D → Nat → ℚ × S)
    (m : S → Nat → Params K D → Params K D) (nIter nHot : Nat)
    (hm : ∀ s i p, StochasticParams p → StochasticParams (m s i p))
    (hinit : ∀ r p, initOf r = Except.ok p → StochasticParams p) :
    ∀ (r : Nat) (best : ℚ × Params K D × List ℚ) (live : Params K D),
      fitLoop initOf estep (some m) nIter nHot r
          = Except.ok (some (best, live)) →
      StochasticParams best.2.1 ∧ StochasticParams live := by
  intro r
  induction r with
  | zero =>
    intro best live h
    rw [fitLoop] at h
    injection h with h2
    cases h2
  | succ k ih =>
    intro best live h
    cases hprev : fitLoop initOf estep (some m) nIter nHot k with
    | error e =>
      rw [fitLoop, hprev, exceptBind_err] at h
      cases h
    | ok stPrev =>
      cases hinit0 : initOf k with
      | error e =>
        rw [fitLoop, hprev, exceptBind_ok, hinit0, exceptBind_err] at h
        cases h
      | ok p0 =>
        have hp0 := hinit k p0 hinit0
        rw [fitLoop, hprev, exceptBind_ok, hinit0, exceptBind_ok,
          emRunE_some_eq, exceptBind_ok] at h
        cases nIter with
        | zero => cases h
        | succ nit =>
          have hpEnd : StochasticParams (emState estep m p0 (nit + 1)) :=
            emState_stochastic estep m p0 hm hp0 (nit + 1)
          simp only [Nat.succ_ne_zero, if_false] at h
          injection h with h2
          cases stPrev with
          | none =>
            rw [bestUpdate] at h2
            obtain ⟨h5, h6⟩ := Prod.mk.inj (Option.some.inj h2).symm
            subst h5
            subst h6
            exact ⟨hpEnd, hpEnd⟩
          | some pr =>
            obtain ⟨⟨b, bp, bt⟩, oldLive⟩ := pr
            rw [bestUpdate] at h2
            by_cases hb : b < emLL estep m p0 (nit + 1 - 1)
            · rw [if_pos hb] at h2
              obtain ⟨h5, h6⟩ := Prod.mk.inj (Option.some.inj h2).symm
              subst h5
              subst h6
              exact ⟨hpEnd, hpEnd⟩
            · rw [if_neg hb] at h2
              obtain ⟨h5, h6⟩ := Prod.mk.inj (Option.some.inj h2).symm
              subst h5
              subst h6
              exact ⟨(ih (b, bp, bt) oldLive hprev).1, hpEnd⟩

/-- C8: immediately after `_init`, `transmat_` and `populations_` are exactly
the uniform distributions over the `n_states` states — so every `transmat_`
row sums to 1 with non-negative entries and `populations_` sums to 1 — and
for any completed fit whose hot starts and M-step updates preserve
normalization, the fitted model's `transmat_` rows sum to 1 with
non-negative entries and its `populations_` sums to 1. -/
theorem transmat_populations_normalized {K D : Nat} {S : Type}
    (km : Fin K → Fin D → ℚ) (cv : Matrix (Fin D) (Fin D) ℚ) (hK : 0 < K)
    (initOf : Nat → Except PyErr (Params K D))
    (estep : Params K D → Nat → ℚ × S)
    (m : S → Nat → Params K D → Params K D) (nInit nIter nHot : Nat)
    (d : FitDone K D)
    (hm : ∀ s i p, StochasticParams p → StochasticParams (m s i p))
    (hinit : ∀ r p, initOf r = Except.ok p → StochasticParams p)
    (hfit : fitPy initOf estep (some m) nInit nIter nHot = Except.ok d) :
    (initParams K D km cv).transmat = (fun _ _ => 1 / (K : ℚ)) ∧
    (initParams K D km cv).populations = (fun _ => 1 / (K : ℚ)) ∧
    StochasticParams (initParams K D km cv) ∧
    RowStochastic d.transmat ∧ ProbVec d.populations := by
  obtain ⟨ht, hp, hstoch⟩ := initParams_uniform_stochastic km cv hK
  refine ⟨ht, hp, hstoch, ?_⟩
  rw [fitPy] at hfit
  cases hloop : fitLoop initOf estep (some m) nIter nHot nInit with
  | error e => rw [hloop] at hfit; cases hfit
  | ok o =>
    cases o with
    | none => rw [hloop] at hfit; cases hfit
    | some pr =>
      obtain ⟨⟨b, bp, bt⟩, live⟩ := pr
      rw [hloop] at hfit
      have hbp := (fitLoop_stochastic initOf estep m nIter nHot hm hinit
        nInit (b, bp, bt) live hloop).1
      injection hfit with hd
      subst hd
      exact ⟨hbp.1, hbp.2⟩

/-- Uniform-distribution 1-state parameter set for concrete runs. -/
def uniParams : Params 1 1 :=
  { zeroParams with transmat := (fun _ _ => 1), populations := (fun _ => 1) }

/-- Expected `fit` outcome of the C8 witness configuration. -/
def uniFitDone : FitDone 1 1 :=
  FitDone.mk (fun _ _ => 0) (fun _ => 0) (fun _ => 0) (fun _ => 0)
    (fun _ _ => 0) (fun _ => 0) (fun _ _ => 1) (fun _ => 1) [0]

/-- Witness for C8 at a concrete 1-state configuration: one restart, one EM
iteration, identity M-step, hot start `uniParams`. -/
theorem transmat_populations_normalized_witness :
    0 < 1 ∧
    (∀ (s : Unit) (i : Nat) (p : Params 1 1),
      StochasticParams p → StochasticParams ((fun _ _ q => q) s i p)) ∧
    (∀ (r : Nat) (p : Params 1 1),
      (fun _ => (Except.ok uniParams : Except PyErr (Params 1 1))) r
        = Except.ok p → StochasticParams p) ∧
    ((initParams 1 1 (fun _ _ => 0) 0).transmat
        = (fun _ _ => 1 / ((1 : Nat) : ℚ)) ∧
      (initParams 1 1 (fun _ _ => 0) 0).populations
        = (fun _ => 1 / ((1 : Nat) : ℚ)) ∧
      StochasticParams (initParams 1 1 (fun _ _ => 0) 0) ∧
      RowStochastic uniFitDone.transmat ∧
      ProbVec uniFitDone.populations) := by
  have hm : ∀ (s : Unit) (i : Nat) (p : Params 1 1),
      StochasticParams p → StochasticParams ((fun _ _ q => q) s i p) :=
    fun _ _ _ h => h
  have hinit : ∀ (r : Nat) (p : Params 1 1),
      (fun _ => (Except.ok uniParams : Except PyErr (Params 1 1))) r
        = Except.ok p → StochasticParams p := by
    intro r p h
    injection h with h2
    subst h2
    refine ⟨⟨fun i => ?_, fun i j => ?_⟩, ?_, fun i => ?_⟩
    · show (∑ _j : Fin 1, (1 : ℚ)) = 1
      simp
    · show (0 : ℚ) ≤ 1
      norm_num
    · show (∑ _i : Fin 1, (1 : ℚ)) = 1
      simp
    · show (0 : ℚ) ≤ 1
      norm_num
  have hfit : fitPy (fun _ => (Except.ok uniParams : Except PyErr (Params 1 1)))
      (fun _ _ => ((0 : ℚ), ())) (some (fun _ _ q => q)) 1 1 0 =
      Except.ok uniFitDone := by
    norm_num [fitPy, fitLoop, bestUpdate, emRunE, exceptBind_ok,
      exceptBind_err, uniParams, zeroParams, uniFitDone]
  exact ⟨Nat.one_pos, hm, hinit,
    transmat_populations_normalized (fun _ _ => 0) 0 Nat.one_pos
      (fun _ => Except.ok uniParams) (fun _ _ => ((0 : ℚ), ()))
      (fun _ _ q => q) 1 1 0 uniFitDone hm hinit hfit⟩

/-- Assignment `l[i] = v` on a numpy array of length `l.length`: writing an
out-of-range index raises `IndexError`. -/
def setIdx {α : Type} (l : List α) (i : Nat) (v : α) : Except PyErr (List α) :=
  if i < l.length then Except.ok (l.set i v) else Except.error PyErr.indexError

/-- Read `l[i]` from a numpy array: an out-of-range index raises
`IndexError`. -/
def getIdx {α : Type} (l : List α) (i : Nat) : Except PyErr α :=
  match l[i]? with
  | some v => Except.ok v
  | none => Except.error PyErr.indexError

/-- The time-update loop of `sample` (lines 144-151): at step `t` the state
`s = hidden_state[t]` selects the dynamics, `obs[t + 1]` receives a draw
from `N(A_s obs[t] + b_s, Q_s)` (the draw given by the oracle `mvnO`), and
`hidden_state[t + 1]` a draw from `transmat_[s]` (oracle `catO`). -/
def sampleLoop {K D : Nat} (p : Params K D)
    (catO : Nat → (Fin K → ℚ) → Fin K)
    (mvnO : Nat → (Fin D → ℚ) → Matrix (Fin D) (Fin D) ℚ → Fin D → ℚ) :
    List Nat → List (Fin D → ℚ) → List (Fin K) →
    Except PyErr (List (Fin D → ℚ) × List (Fin K))
  | [], obs, hidden => Except.ok (obs, hidden)
  | t :: ts, obs, hidden => do
    let s ← getIdx hidden t
    let x ← getIdx obs t
    let obs2 ← setIdx obs (t + 1) (mvnO t ((p.As s).mulVec x + p.bs s) (p.Qs s))
    let hidden2 ← setIdx hidden (t + 1) (catO t (p.transmat s))
    sampleLoop p catO mvnO ts obs2 hidden2

/-- Method `sample` (lines 124-153): allocate `obs = zeros((n_samples, D))`
and `hidden_state = zeros(n_samples, int)`, write `hidden_state[0]` (the
given `init_state`, or a categorical draw `cat0` from `populations_`), write
`obs[0]` (the given `init_obs`, or a Gaussian draw `mvn0` from state
`hidden_state[0]`'s emission parameters), then run the time-update loop for
`t in range(n_samples - 1)`. -/
def samplePy {K D : Nat} (hK : 0 < K) (p : Params K D) (n : Nat)
    (initState : Option (Fin K)) (initObs : Option (Fin D → ℚ))
    (cat0 : (Fin K → ℚ) → Fin K)
    (mvn0 : (Fin D → ℚ) → Matrix (Fin D) (Fin D) ℚ → Fin D → ℚ)
    (catO : Nat → (Fin K → ℚ) → Fin K)
    (mvnO : Nat → (Fin D → ℚ) → Matrix (Fin D) (Fin D) ℚ → Fin D → ℚ) :
    Except PyErr (List (Fin D → ℚ) × List (Fin K)) := do
  let obs0 : List (Fin D → ℚ) := List.replicate n (fun _ => 0)
  let hid0 : List (Fin K) := List.replicate n ⟨0, hK⟩
  let s0 : Fin K := match initState with
    | some s => s
    | none => cat0 p.populations
  let hid1 ← setIdx hid0 0 s0
  let o0 : Fin D → ℚ := match initObs with
    | some o => o
    | none => mvn0 (p.means s0) (p.covars s0)
  let obs1 ← setIdx obs0 0 o0
  sampleLoop p catO mvnO (List.range (n - 1)) obs1 hid1

/-- Setting an index other than 0 leaves the first element unchanged. -/
theorem getZero_set_succ {α : Type} (l : List α) (t : Nat) (v : α) :
    (l.set (t + 1) v)[0]? = l[0]? := by
  cases l with
  | nil => rfl
  | cons a as => simp

/-- Setting index 0 of a nonempty list makes the first element the new
value. -/
theorem getZero_set_zero {α : Type} (l : List α) (v : α) (h : 0 < l.length) :
    (l.set 0 v)[0]? = some v := by
  cases l with
  | nil => simp at h
  | cons a as => simp

/-- The time-update loop succeeds whenever every written index `t + 1` is in
range, preserving lengths and the first elements of both arrays. -/
theorem sampleLoop_ok {K D : Nat} (p : Params K D)
    (catO : Nat → (Fin K → ℚ) → Fin K)
    (mvnO : Nat → (Fin D → ℚ) → Matrix (Fin D) (Fin D) ℚ → Fin D → ℚ) :
    ∀ (ts : List Nat) (obs : List (Fin D → ℚ)) (hidden : List (Fin K)),
      (∀ t ∈ ts, t + 1 < obs.length) → hidden.length = obs.length →
      ∃ obs2 hidden2,
        sampleLoop p catO mvnO ts obs hidden = Except.ok (obs2, hidden2) ∧
        obs2.length = obs.length ∧ hidden2.length = hidden.length ∧
        obs2[0]? = obs[0]? ∧ hidden2[0]? = hidden[0]? := by
  intro ts
  induction ts with
  | nil =>
    intro obs hidden _ _
    exact ⟨obs, hidden, rfl, rfl, rfl, rfl, rfl⟩
  | cons t ts ih =>
    intro obs hidden hts hlen
    have ht : t + 1 < obs.length := hts t (List.mem_cons_self t ts)
    have hto : t < obs.length := Nat.lt_of_succ_lt ht
    have hth : t < hidden.length := by omega
    have hget1 : getIdx hidden t = Except.ok (hidden.get ⟨t, hth⟩) := by
      rw [getIdx, List.getElem?_eq_getElem hth]
      rfl
    have hget2 : getIdx obs t = Except.ok (obs.get ⟨t, hto⟩) := by
      rw [getIdx, List.getElem?_eq_getElem hto]
      rfl
    set s := hidden.get ⟨t, hth⟩ with hsdef
    set x := obs.get ⟨t, hto⟩ with hxdef
    have hset1 : setIdx obs (t + 1)
        (mvnO t ((p.As s).mulVec x + p.bs s) (p.Qs s)) =
        Except.ok (obs.set (t + 1)
          (mvnO t ((p.As s).mulVec x + p.bs s) (p.Qs s))) := by
      rw [setIdx, if_pos ht]
    have hset2 : setIdx hidden (t + 1) (catO t (p.transmat s)) =
        Except.ok (hidden.set (t + 1) (catO t (p.transmat s))) := by
      rw [setIdx, if_pos (by omega : t + 1 < hidden.length)]
    obtain ⟨obs2, hidden2, hloop, hl1, hl2, hh1, hh2⟩ :=
      ih (obs.set (t + 1) (mvnO t ((p.As s).mulVec x + p.bs s) (p.Qs s)))
        (hidden.set (t + 1) (catO t (p.transmat s)))
        (by
          intro u hu
          rw [List.length_set]
          exact hts u (List.mem_cons_of_mem t hu))
        (by rw [List.length_set, List.length_set, hlen])
    refine ⟨obs2, hidden2, ?_, ?_, ?_, ?_, ?_⟩
    · rw [sampleLoop, hget1, exceptBind_ok, hget2, exceptBind_ok,
        hset1, exceptBind_ok, hset2, exceptBind_ok]
      exact hloop
    · rw [hl1, List.length_set]
    · rw [hl2, List.length_set]
    · rw [hh1, getZero_set_succ]
    · rw [hh2, getZero_set_succ]

/-- C10: `sample` requires `n_samples ≥ 1`: with `n_samples = 0` the write
to index 0 of the freshly allocated arrays is out of bounds and raises
`IndexError` (whatever `init_state` and `init_obs` are); with
`n_samples ≥ 1` every written index is in bounds, the call succeeds with
arrays of length `n_samples`, and when `init_state` and `init_obs` are
supplied, the returned `hidden_state[0]` equals `init_state` and `obs[0]`
equals `init_obs`. -/
theorem sample_needs_positive_length {K D : Nat} (hK : 0 < K)
    (p : Params K D) (cat0 : (Fin K → ℚ) → Fin K)
    (mvn0 : (Fin D → ℚ) → Matrix (Fin D) (Fin D) ℚ → Fin D → ℚ)
    (catO : Nat → (Fin K → ℚ) → Fin K)
    (mvnO : Nat → (Fin D → ℚ) → Matrix (Fin D) (Fin D) ℚ → Fin D → ℚ)
    (n : Nat) (hn : 1 ≤ n) (s : Fin K) (o : Fin D → ℚ) :
    (∀ is0 io0, samplePy hK p 0 is0 io0 cat0 mvn0 catO mvnO
      = Except.error PyErr.indexError) ∧
    ∃ obs hidden,
      samplePy hK p n (some s) (some o) cat0 mvn0 catO mvnO
        = Except.ok (obs, hidden) ∧
      obs.length = n ∧ hidden.length = n ∧
      hidden[0]? = some s ∧ obs[0]? = some o := by
  constructor
  · intro is0 io0
    rfl
  · have hlhid : (List.replicate n (⟨0, hK⟩ : Fin K)).length = n :=
      List.length_replicate n _
    have hlobs : (List.replicate n (fun _ => (0 : ℚ) : Fin D → ℚ)).length = n :=
      List.length_replicate n _
    have h1 : setIdx (List.replicate n (⟨0, hK⟩ : Fin K)) 0 s
        = Except.ok ((List.replicate n (⟨0, hK⟩ : Fin K)).set 0 s) := by
      rw [setIdx, if_pos (by rw [hlhid]; omega)]
    have h2 : setIdx (List.replicate n (fun _ => (0 : ℚ) : Fin D → ℚ)) 0 o
        = Except.ok
          ((List.replicate n (fun _ => (0 : ℚ) : Fin D → ℚ)).set 0 o) := by
      rw [setIdx, if_pos (by rw [hlobs]; omega)]
    obtain ⟨obs2, hidden2, hloop, hl1, hl2, hh1, hh2⟩ :=
      sampleLoop_ok p catO mvnO (List.range (n - 1))
        ((List.replicate n (fun _ => (0 : ℚ) : Fin D → ℚ)).set 0 o)
        ((List.replicate n (⟨0, hK⟩ : Fin K)).set 0 s)
        (by
          intro t htm
          rw [List.length_set, hlobs]
          have := List.mem_range.mp htm
          omega)
        (by rw [List.length_set, List.length_set, hlhid, hlobs])
    refine ⟨obs2, hidden2, ?_, ?_, ?_, ?_, ?_⟩
    · show (do
        let hid1 ← setIdx (List.replicate n (⟨0, hK⟩ : Fin K)) 0 s
        let obs1 ← setIdx (List.replicate n (fun _ => (0 : ℚ) : Fin D → ℚ)) 0 o
        sampleLoop p catO mvnO (List.range (n - 1)) obs1 hid1)
          = Except.ok (obs2, hidden2)
      rw [h1, exceptBind_ok, h2, exceptBind_ok]
      exact hloop
    · rw [hl1, List.length_set, hlobs]
    · rw [hl2, List.length_set, hlhid]
    · rw [hh2, getZero_set_zero _ _ (by rw [hlhid]; omega)]
    · rw [hh1, getZero_set_zero _ _ (by rw [hlobs]; omega)]

/-- Witness for C10 at a concrete 1-state, 1-feature model, `n_samples = 3`,
`init_state = 0` and `init_obs` the constant-5 vector. -/
theorem sample_needs_positive_length_witness :
    1 ≤ 3 ∧
    ((∀ is0 io0, samplePy Nat.one_pos zeroParams 0 is0 io0
        (fun _ => 0) (fun _ _ _ => 0) (fun _ _ => 0) (fun _ _ _ _ => 0)
      = Except.error PyErr.indexError) ∧
    ∃ obs hidden,
      samplePy Nat.one_pos zeroParams 3 (some 0) (some (fun _ => 5))
          (fun _ => 0) (fun _ _ _ => 0) (fun _ _ => 0) (fun _ _ _ _ => 0)
        = Except.ok (obs, hidden) ∧
      obs.length = 3 ∧ hidden.length = 3 ∧
      hidden[0]? = some 0 ∧ obs[0]? = some (fun _ => 5)) :=
  ⟨by norm_num,
   sample_needs_positive_length Nat.one_pos zeroParams
     (fun _ => 0) (fun _ _ _ => 0) (fun _ _ => 0) (fun _ _ _ _ => 0)
     3 (by norm_num) 0 (fun _ => 5)⟩

/-- C3: the claim asserts that after `_init` every `A[k]` equals
`(1 - eps) * I` (0.8 on the diagonal, 0 off the diagonal) with spectral
radius < 1.  The code instead computes `np.eye(D) - eps`, which subtracts
`eps` from every entry.  At `n_features = 2` the resulting matrix has
off-diagonal entries `-1/5` (not 0), and the nonzero vector `(1, -1)` is
fixed by it, so 1 is an eigenvalue and the spectral radius is not < 1. -/
theorem initAs_off_diagonal_and_unit_eigenvector :
    initAs 1 2 0 = Matrix.of ![![4/5, -1/5], ![-1/5, 4/5]] ∧
    initAs 1 2 0 0 1 = -1/5 ∧
    (initAs 1 2 0).mulVec ![1, -1] = ![1, -1] ∧
    (![1, -1] : Fin 2 → ℚ) ≠ 0 := by
  refine ⟨?_, ?_, ?_, ?_⟩
  · funext i j
    fin_cases i <;> fin_cases j <;>
      simp [initAs, eps] <;> norm_num
  · simp [initAs, eps]
    norm_num
  · funext i
    fin_cases i <;>
      simp [initAs, eps, Matrix.mulVec, Matrix.dotProduct, Fin.sum_univ_two] <;>
      norm_num
  · intro h
    have h0 : (![1, -1] : Fin 2 → ℚ) 0 = 0 := by rw [h]; rfl
    simp at h0

/-- C7: for every state whose matrix `I - A[k]` is invertible,
`compute_metastable_wells` returns exactly `(I - A[k])⁻¹ b[k]`; equivalently
the returned well solves `(I - A[k]) x = b[k]`. -/
theorem compute_metastable_wells_closed_form {K D : Nat} (p : Params K D)
    (k : Fin K) (h : IsUnit ((1 - p.As k : Matrix (Fin D) (Fin D) ℚ).det)) :
    compute_metastable_wells p k =
      ((1 : Matrix (Fin D) (Fin D) ℚ) - p.As k)⁻¹.mulVec (p.bs k) ∧
    ((1 : Matrix (Fin D) (Fin D) ℚ) - p.As k).mulVec
      (compute_metastable_wells p k) = p.bs k := by
  constructor
  · rw [compute_metastable_wells, npInv_eq_inv]
  · rw [compute_metastable_wells, npInv_eq_inv, Matrix.mulVec_mulVec,
      Matrix.mul_nonsing_inv _ h, Matrix.one_mulVec]

/-- A hand-constructed 1-state, 2-feature parameter set with `A = 0` and
`b = (1, 2)`, used as a concrete instance for the wells computation. -/
def wellsExample : Params 1 2 where
  means := fun _ _ => 0
  covars := fun _ => 0
  As := fun _ => 0
  bs := fun _ => ![1, 2]
  Qs := fun _ => 0
  transmat := fun _ _ => 1
  populations := fun _ => 1

/-- Witness for C7 at the concrete parameter set `wellsExample`. -/
theorem compute_metastable_wells_closed_form_witness :
    IsUnit ((1 - wellsExample.As 0 : Matrix (Fin 2) (Fin 2) ℚ).det) ∧
    (compute_metastable_wells wellsExample 0 =
      ((1 : Matrix (Fin 2) (Fin 2) ℚ) - wellsExample.As 0)⁻¹.mulVec
        (wellsExample.bs 0) ∧
    ((1 : Matrix (Fin 2) (Fin 2) ℚ) - wellsExample.As 0).mulVec
      (compute_metastable_wells wellsExample 0) = wellsExample.bs 0) :=
  ⟨by simp [wellsExample],
   compute_metastable_wells_closed_form wellsExample 0 (by simp [wellsExample])⟩

/-- C9: after `_init`, `b[k] = (I - A[k]) * means[k]`, hence the cluster mean
is a fixed point of `x ↦ A[k] x + b[k]`, and whenever `I - A[k]` is
invertible the metastable well of state `k` equals `means[k]`. -/
theorem initParams_bs_fixed_point {K D : Nat} (km : Fin K → Fin D → ℚ)
    (cv : Matrix (Fin D) (Fin D) ℚ) (k : Fin K) :
    (initParams K D km cv).bs k =
      ((1 : Matrix (Fin D) (Fin D) ℚ) - (initParams K D km cv).As k).mulVec
        ((initParams K D km cv).means k) ∧
    ((initParams K D km cv).As k).mulVec (km k) + (initParams K D km cv).bs k
      = km k ∧
    (IsUnit (((1 : Matrix (Fin D) (Fin D) ℚ) - (initParams K D km cv).As k).det) →
      compute_metastable_wells (initParams K D km cv) k = km k) := by
  refine ⟨rfl, ?_, ?_⟩
  · show (initAs K D k).mulVec (km k) +
      ((1 : Matrix (Fin D) (Fin D) ℚ) - initAs K D k).mulVec (km k) = km k
    rw [Matrix.sub_mulVec, Matrix.one_mulVec]
    ring
  · intro h
    have h2 : IsUnit (((1 : Matrix (Fin D) (Fin D) ℚ) - initAs K D k).det) := h
    show (npInv ((1 : Matrix (Fin D) (Fin D) ℚ) - initAs K D k)).mulVec
      (((1 : Matrix (Fin D) (Fin D) ℚ) - initAs K D k).mulVec (km k)) = km k
    rw [npInv_eq_inv, Matrix.mulVec_mulVec, Matrix.nonsing_inv_mul _ h2,
      Matrix.one_mulVec]

/-- Witness for C9 at a concrete 1-state, 1-feature instance. -/
theorem initParams_bs_fixed_point_witness :
    IsUnit (((1 : Matrix (Fin 1) (Fin 1) ℚ) -
      (initParams 1 1 (fun _ _ => 3) 0).As 0).det) ∧
    ((initParams 1 1 (fun _ _ => 3) 0).As 0).mulVec ((fun _ _ => 3 : Fin 1 → Fin 1 → ℚ) 0) +
      (initParams 1 1 (fun _ _ => 3) 0).bs 0 = (fun _ _ => 3 : Fin 1 → Fin 1 → ℚ) 0 ∧
    compute_metastable_wells (initParams 1 1 (fun _ _ => 3) 0) 0 =
      (fun _ _ => 3 : Fin 1 → Fin 1 → ℚ) 0 := by
  have h : IsUnit (((1 : Matrix (Fin 1) (Fin 1) ℚ) -
      (initParams 1 1 (fun _ _ => 3) 0).As 0).det) := by
    simp [initParams, initAs, eps, Matrix.det_fin_one]
  exact ⟨h, (initParams_bs_fixed_point (fun _ _ => 3) 0 0).2.1,
    (initParams_bs_fixed_point (fun _ _ => 3) 0 0).2.2 h⟩

end Mslds
